import Mathlib

/-!
Verification development for `send_test_email_with_screenshot.py`, a browser-driven
UI smoke-check tool.  The script is shallowly embedded: pure helpers become Lean
functions; all interaction with the outside world (browser, filesystem, SMTP
server, clock, environment variables) is passed in explicitly as data.

Modelling conventions, used throughout:
* the filesystem is a list `fs : List String` of the paths that exist as regular
  files (so `exists()` together with `is_file()` becomes `fs.contains p`, and a
  successful `open(p, "rb")` is modelled as `fs.contains p`);
* `Path(p).resolve()` is modelled as the identity on already-absolute path
  strings;
* `datetime.now()` values (`stamp()`, report body time, subject time) are
  external inputs, passed in as strings;
* `make_msgid(domain="local").strip("<>")` produces a fresh random token per
  call; it is modelled by a deterministic counter `cidFor k`, which preserves the
  only property the script relies on (a fresh identifier per inline image);
* Python truthiness of strings, lists and `None` is modelled explicitly by the
  `py...` helpers.
-/

namespace JPHealth

/-! ## Basic character/string helpers -/

/-- Strip leading and trailing whitespace from a character list
(model of Python `str.strip()` with no argument). -/
def trimWs (cs : List Char) : List Char :=
  ((cs.dropWhile Char.isWhitespace).reverse.dropWhile Char.isWhitespace).reverse

/-- Decide whether `pat` occurs as a contiguous substring of `s`. -/
def hasSubstr (pat : List Char) : List Char → Bool
  | [] => pat.isEmpty
  | c :: rest => pat.isPrefixOf (c :: rest) || hasSubstr pat rest

/-- String-level wrapper for `hasSubstr`. -/
def hasSubstrS (pat s : String) : Bool :=
  hasSubstr pat.toList s.toList

/-- Replace every non-overlapping occurrence of `pat` by `rep`, scanning left to
right (the semantics of Python `str.replace`).  The `fuel` argument makes the
recursion structural; it is always called with `fuel = s.length`, which is
sufficient because each step consumes at least one character. -/
def replaceAllAux (pat rep : List Char) : Nat → List Char → List Char
  | _, [] => []
  | 0, l => l
  | fuel + 1, c :: rest =>
    if pat.isPrefixOf (c :: rest) && !pat.isEmpty then
      rep ++ replaceAllAux pat rep fuel ((c :: rest).drop pat.length)
    else
      c :: replaceAllAux pat rep fuel rest

/-- Replace every non-overlapping occurrence of `pat` by `rep` in `s`. -/
def replaceAllL (pat rep s : List Char) : List Char :=
  replaceAllAux pat rep s.length s

/-- Model of Python `s.replace(pat, rep)`: every occurrence is replaced, not
only a leading one. -/
def strReplace (s pat rep : String) : String :=
  ⟨replaceAllL pat.toList rep.toList s.toList⟩

/-- Join a list of strings with a separator (model of Python `sep.join(list)`). -/
def joinSep (sep : String) : List String → String
  | [] => ""
  | [x] => x
  | x :: y :: rest => x ++ sep ++ joinSep sep (y :: rest)

/-- Last path component (model of `Path(p).name` for the screenshot paths the
script produces, which contain no trailing slash). -/
def pathName (p : String) : String :=
  ⟨(p.toList.reverse.takeWhile (fun c => c != '/')).reverse⟩

/-- The apostrophe character, written via its code point. -/
def aposChar : Char := Char.ofNat 39

/-- Model of Python `html.escape(s)` with its default `quote=True`:
`&`, `<`, `>`, `"` and the apostrophe are replaced by entities.  Python applies
`str.replace` sequentially starting with `&`, which on any input coincides with
this single character-wise pass. -/
def htmlEscape (s : String) : String :=
  ⟨(s.toList.map (fun c =>
      if c = '&' then "&amp;".toList
      else if c = '<' then "&lt;".toList
      else if c = '>' then "&gt;".toList
      else if c = '"' then "&quot;".toList
      else if c = aposChar then "&#x27;".toList
      else [c])).flatten⟩

/-! ## Python truthiness helpers -/

/-- Python truthiness of an optional string (`None` and `""` are falsy). -/
def pyTruthyOpt : Option String → Bool
  | none => false
  | some s => s != ""

/-- Model of Python `a or b` where `a : Optional[str]` (used for the credential
resolution chain `args.x or os.environ.get(...) or os.environ.get(...)`). -/
def pyOrOpt (x y : Option String) : Option String :=
  match x with
  | some s => if s == "" then y else some s
  | none => y

/-- Model of `a if a else d` for an optional string argument. -/
def pyOrStr (x : Option String) (d : String) : String :=
  match x with
  | some s => if s == "" then d else s
  | none => d

/-- Model of `a if a else d` for an optional list argument. -/
def pyOrList (x : Option (List String)) (d : List String) : List String :=
  match x with
  | some l => if l.isEmpty then d else l
  | none => d

/-! ## Model of Python `float()` parsing

Used only for the computed-style opacity check `float(css.get("opacity", "1")) == 0`.
The model parses an optional sign, a decimal digit part with an optional
fractional digit part, and an optional exponent, where each digit part follows
Python's grammar `digit (["_"] digit)*` (PEP 515 underscore separators: an
underscore must sit between two digits, so `"0_0"` parses to zero while
`"1__2"`, `"1_"`, `"1._5"` and `"1e_5"` raise).  The parsed value is
represented exactly as a mantissa/exponent pair `(m, e)` denoting `m · 10^e`;
the script's only use of the value is the comparison `== 0`, which holds
exactly when `m = 0` (see `pyFloatIsZero`).  Python additionally accepts
`inf`/`nan` spellings; those are mapped to `none` here, which is
observationally equal for the script's only use (`inf`/`nan` never compare
equal to zero, and the script treats an unparseable opacity exactly like a
nonzero one).  IEEE-754 underflow of extreme exponents to `0.0` is not
modelled; computed CSS opacity values are short decimals in `[0, 1]`, where the
model is exact. -/

/-- Numeric value of a list of decimal digit characters. -/
def digitsVal (ds : List Char) : Nat :=
  ds.foldl (fun acc c => acc * 10 + (c.toNat - 48)) 0

/-- Continuation of a Python `digitpart` after its first digit: consumes
`(["_"] digit | digit)*`, returning the accumulated digits (underscores
removed) and the unconsumed remainder.  An underscore not followed by a digit
is left in the remainder, where it then fails the surrounding parse as junk —
exactly Python's behavior for `"1_"` or `"1__2"`. -/
def digitPartGo : List Char → List Char → List Char × List Char
  | [], acc => (acc.reverse, [])
  | d :: rest, acc =>
    if d.isDigit then digitPartGo rest (d :: acc)
    else if d = '_' then
      match rest with
      | e :: rest2 =>
        if e.isDigit then digitPartGo rest2 (e :: acc)
        else (acc.reverse, d :: e :: rest2)
      | [] => (acc.reverse, [d])
    else (acc.reverse, d :: rest)

/-- A Python `digitpart` (`digit (["_"] digit)*`): `none` when the input does
not start with a digit. -/
def digitPart (cs : List Char) : Option (List Char × List Char) :=
  match cs with
  | c :: rest => if c.isDigit then some (digitPartGo rest [c]) else none
  | [] => none

/-- Model of Python `float(s)`: `some (m, e)` denotes the exact value
`m · 10^e`; `none` models a `ValueError`. -/
def pyFloat (s : String) : Option (Int × Int) :=
  let cs := trimWs s.toList
  let sgnCs : Int × List Char :=
    match cs with
    | '+' :: rest => (1, rest)
    | '-' :: rest => (-1, rest)
    | _ => (1, cs)
  let sgn := sgnCs.1
  let cs1 := sgnCs.2
  let intSplit : List Char × List Char :=
    match digitPart cs1 with
    | some r => r
    | none => ([], cs1)
  let intDigits := intSplit.1
  let afterInt := intSplit.2
  let fracSplit : List Char × List Char :=
    match afterInt with
    | '.' :: rest =>
      (match digitPart rest with
       | some r => r
       | none => ([], rest))
    | _ => ([], afterInt)
  let fracDigits := fracSplit.1
  let afterFrac := fracSplit.2
  if intDigits.isEmpty && fracDigits.isEmpty then none
  else
    let mant : Int := sgn * (digitsVal (intDigits ++ fracDigits) : Int)
    match afterFrac with
    | [] => some (mant, -(fracDigits.length : Int))
    | e :: rest =>
      if e == 'e' || e == 'E' then
        let esplit : Bool × List Char :=
          match rest with
          | '+' :: r => (false, r)
          | '-' :: r => (true, r)
          | _ => (false, rest)
        match digitPart esplit.2 with
        | some r =>
          if r.2.isEmpty then
            some (mant,
              (if esplit.1 then -(digitsVal r.1 : Int) else (digitsVal r.1 : Int)) -
                (fracDigits.length : Int))
          else none
        | none => none
      else none

/-- The comparison `float(...) == 0` on a parsed value: `m · 10^e = 0` iff
`m = 0`. -/
def pyFloatIsZero (v : Int × Int) : Bool := v.1 == 0

/-! ## Defaults (module-level constants of the script) -/

def DEFAULT_URLS : List String :=
  ["https://docs.newrelic.com/docs/apis/nerdgraph/examples/nerdgraph-cloud-integrations-api-tutorial/#list-enabled-provider-accounts"]
def DEFAULT_SELECTOR : String := "h1"
def DEFAULT_EXPECTED_TEXT : String := "NerdGraph tutorial: Configure cloud integrations"
def DEFAULT_TIMEOUT_MS : Int := 15000
def DEFAULT_OUT_DIR : String := "screenshots"
def DEFAULT_WINDOW : String := "1366x768"
def DEFAULT_HEADED : Bool := false
def DEFAULT_CHECK_SIZE : Bool := false
def DEFAULT_MIN_WIDTH : Int := 10
def DEFAULT_MIN_HEIGHT : Int := 5

/-- In the source this constant is annotated `List[str]` but its value is the
plain string `"TO_EMAIL"`; the type of this definition records the actual
runtime value, which is what the program operates on. -/
def DEFAULT_EMAIL_TO : String := "TO_EMAIL"
def DEFAULT_EMAIL_CC : List String := []
def DEFAULT_EMAIL_ATTACH_SCREENS : Bool := true

def DEFAULT_SMTP_SERVER : String := "smtp.gmail.com"
def DEFAULT_SMTP_PORT : Int := 587
def DEFAULT_SMTP_USE_SSL : Bool := false
def DEFAULT_SMTP_FROM_NAME : String := ""
def DEFAULT_SMTP_PASS_ENV : String := "SMTP_PASSWORD"
def DEFAULT_SMTP_USER_ENV : String := "SMTP_USERNAME"
def DEFAULT_EMAIL_INLINE_IMAGES : Bool := true

/-! ## `sanitize` (screenshot filename sanitization) -/

/-- Direct translation of `sanitize` (lines 68-77): a chain of `str.replace`
calls, each of which replaces every occurrence of its pattern. -/
def sanitize (url : String) : String :=
  strReplace (strReplace (strReplace (strReplace (strReplace (strReplace (strReplace
    url "https://" "") "http://" "") "/" "_") "?" "_") ":" "_") "&" "_") "=" "_"

/-- Character replacement used by the specification's description of
`sanitize`: each of `:`, `/`, `?`, `&`, `=` becomes `_`. -/
def sanitizeChar (c : Char) : Char :=
  if c = ':' ∨ c = '/' ∨ c = '?' ∨ c = '&' ∨ c = '=' then '_' else c

/-- The sanitization function as the specification words it ("strips the
`http://` or `https://` scheme prefix and replaces every occurrence of the
characters `:`, `/`, `?`, `&`, `=` with `_`").  Defined from the spec's words,
to be compared against `sanitize`, which is translated from the source. -/
def sanitizeSpec (url : String) : String :=
  let cs := url.toList
  let rest :=
    if "https://".toList.isPrefixOf cs then cs.drop 8
    else if "http://".toList.isPrefixOf cs then cs.drop 7
    else cs
  ⟨rest.map sanitizeChar⟩

/-! ## Data model -/

/-- Translation of the `UrlResult` dataclass (lines 188-194). -/
structure UrlResult where
  url : String
  ok : Bool
  message : String
  screenshot_path : Option String := none
  failure_screenshot_path : Option String := none
  deriving DecidableEq, Repr

/-- Model of the parsed CLI namespace produced by `parse_args` (lines 197-268).
Optional flags are `none` when omitted; `store_true` flags default to `false`;
`email_inline_images` has `set_defaults(True)`; the `--smtp-*-env` names and
SMTP connection options carry their argparse defaults when omitted. -/
structure Args where
  urls : Option (List String) := none
  selector : Option String := none
  expected_text : Option String := none
  timeout_ms : Option Int := none
  out_dir : Option String := none
  window : Option String := none
  headed : Bool := false
  check_size : Bool := false
  min_width : Option Int := none
  min_height : Option Int := none
  email_to : Option (List String) := none
  email_cc : Option (List String) := none
  email_subject : Option String := none
  email_attach_screens : Bool := false
  email_inline_images : Bool := true
  smtp_server : String := DEFAULT_SMTP_SERVER
  smtp_port : Int := DEFAULT_SMTP_PORT
  smtp_use_ssl : Bool := false
  smtp_user : Option String := none
  smtp_user_env : String := DEFAULT_SMTP_USER_ENV
  smtp_pass : Option String := none
  smtp_pass_env : String := DEFAULT_SMTP_PASS_ENV
  smtp_from_name : String := DEFAULT_SMTP_FROM_NAME

/-- A Python value that is either a list of strings or a plain string: the type
of `email_to` in `main`, which is `args.email_to` (a list) or
`DEFAULT_EMAIL_TO` (a string). -/
inductive PyStrOrList where
  | str (s : String)
  | list (l : List String)
  deriving DecidableEq, Repr

/-- Python truthiness of a string-or-list value. -/
def pyTruthySL : PyStrOrList → Bool
  | .str s => s != ""
  | .list l => !l.isEmpty

/-- Model of Python `sep.join(v)`: joining a plain string iterates over its
characters. -/
def pyJoin (sep : String) : PyStrOrList → String
  | .list l => joinSep sep l
  | .str s => joinSep sep (s.toList.map (fun c => String.mk [c]))

/-- Resolution `email_to = args.email_to if args.email_to else DEFAULT_EMAIL_TO`
(line 479): omitting `--email-to` yields the plain string `"TO_EMAIL"`. -/
def resolveEmailTo (x : Option (List String)) : PyStrOrList :=
  match x with
  | some l => if l.isEmpty then .str DEFAULT_EMAIL_TO else .list l
  | none => .str DEFAULT_EMAIL_TO

/-- Resolution `email_attach_screens = args.email_attach_screens or
DEFAULT_EMAIL_ATTACH_SCREENS` (line 482). -/
def effectiveAttachScreens (a : Args) : Bool :=
  a.email_attach_screens || DEFAULT_EMAIL_ATTACH_SCREENS

/-- Credential resolution for the SMTP username (line 491): CLI value, else the
named environment variable, else the default environment variable. -/
def resolveSmtpUser (a : Args) (env : String → Option String) : Option String :=
  pyOrOpt a.smtp_user (pyOrOpt (env a.smtp_user_env) (env DEFAULT_SMTP_USER_ENV))

/-- Credential resolution for the SMTP password (line 492). -/
def resolveSmtpPass (a : Args) (env : String → Option String) : Option String :=
  pyOrOpt a.smtp_pass (pyOrOpt (env a.smtp_pass_env) (env DEFAULT_SMTP_PASS_ENV))

/-! ## `validate_ui` (per-URL page validation) -/

/-- The computed-style record returned by the injected JavaScript
(lines 134-149). -/
structure ComputedStyle where
  display : String
  visibility : String
  opacity : String
  color : String
  backgroundColor : String
  fontSize : String
  position : String
  deriving DecidableEq, Repr

/-- What the browser reports for one URL: everything `validate_ui` observes.
`css = none` models `execute_script` returning a null value, which the script
coerces to an empty dict via `or {}`. -/
structure PageObservation where
  elementFound : Bool := true
  isDisplayed : Bool := true
  width : Int := 0
  height : Int := 0
  css : Option ComputedStyle := none
  text : String := ""
  deriving DecidableEq, Repr

/-- Translation of `validate_ui` (lines 103-168) as a function from the page
observation to either success or the raised assertion message.  The element
wait raising `TimeoutException` is modelled by a fixed error tag.  Note the
structure of the opacity check (lines 155-159): the `AssertionError` is raised
inside a `try` whose `except` clause catches only `ValueError`/`TypeError`, so
the assertion escapes while a parse failure is swallowed. -/
def validate_ui (url selector expected_text : String) (check_size : Bool)
    (min_w min_h : Int) (obs : PageObservation) : Except String Unit :=
  if !obs.elementFound then
    .error "TimeoutException"
  else if !obs.isDisplayed then
    .error ("Element " ++ selector ++ " is NOT visible on " ++ url)
  else if check_size && decide (obs.width ≤ min_w) then
    .error ("Element width too small (" ++ toString obs.width ++ "px) on " ++ url ++
            " (min " ++ toString min_w ++ ")")
  else if check_size && decide (obs.height ≤ min_h) then
    .error ("Element height too small (" ++ toString obs.height ++ "px) on " ++ url ++
            " (min " ++ toString min_h ++ ")")
  else if (obs.css.map (fun c => c.display)) = some "none" then
    .error ("Element is display:none on " ++ url)
  else if (obs.css.map (fun c => c.visibility)) = some "hidden" then
    .error ("Element is visibility:hidden on " ++ url)
  else
    let opacityStr := match obs.css with
      | some c => c.opacity
      | none => "1"
    match pyFloat opacityStr with
    | some q =>
      if pyFloatIsZero q then .error ("Element opacity 0 (invisible) on " ++ url)
      else
        if String.mk (trimWs obs.text.toList) != expected_text then
          .error ("Text mismatch on " ++ url ++ ". Expected \"" ++ expected_text ++
                  "\", got \"" ++ String.mk (trimWs obs.text.toList) ++ "\"")
        else .ok ()
    | none =>
      if String.mk (trimWs obs.text.toList) != expected_text then
        .error ("Text mismatch on " ++ url ++ ". Expected \"" ++ expected_text ++
                "\", got \"" ++ String.mk (trimWs obs.text.toList) ++ "\"")
      else .ok ()

/-! ## The per-URL run loop of `main` (lines 507-542) -/

/-- External outcome of processing one URL: whether the `validate_ui` call
inside the `try` raises, and whether a successful validation is followed by a
`fullpage_screenshot` raise — each with its formatted message
`f"{type(e).__name__}: {e}"`.  The best-effort failure-screenshot write
(`driver.save_screenshot` at line 537) needs no field: its failure is
swallowed by the inner bare `except: pass` and has no effect on the result,
because `failure_path` is assigned before the write (line 536), so the path is
recorded either way. -/
structure UrlBehavior where
  validationError : Option String := none
  screenshotError : Option String := none
  deriving Repr

/-- One iteration of the run loop: exactly the `try`/`except` body of
lines 510-542.  `stampv` is the `stamp()` value for this iteration (the two
`stamp()` calls within one iteration are modelled by the same oracle value;
the produced paths still differ by the `_failure` suffix).  In the `except`
branch `failure_path` is assigned before `driver.save_screenshot` and a write
failure is swallowed, so the failure result always carries the path. -/
def processUrl (stampv : String) (b : UrlBehavior) (out_dir url : String) : UrlResult :=
  let failPath : Option String :=
    some (out_dir ++ "/" ++ stampv ++ "_" ++ sanitize url ++ "_failure.png")
  match b.validationError with
  | some e =>
    { url := url, ok := false, message := e, failure_screenshot_path := failPath }
  | none =>
    match b.screenshotError with
    | some e =>
      { url := url, ok := false, message := e, failure_screenshot_path := failPath }
    | none =>
      { url := url, ok := true, message := "OK",
        screenshot_path := some (out_dir ++ "/" ++ stampv ++ "_" ++ sanitize url ++ ".png") }

/-- The run loop over all URLs, threading `overall_ok` exactly as the script
does (`overall_ok` starts `True` and is set to `False` in the `except` branch,
i.e. exactly when the appended result has `ok = false`). -/
def runLoop (stamps : Nat → String) (behaviors : Nat → UrlBehavior) (out_dir : String) :
    Nat → Bool → List String → List UrlResult × Bool
  | _, overall, [] => ([], overall)
  | i, overall, url :: rest =>
    let r := processUrl (stamps i) (behaviors i) out_dir url
    let rb := runLoop stamps behaviors out_dir (i + 1) (overall && r.ok) rest
    (r :: rb.1, rb.2)

/-- Reference form of the run loop's result list: each URL processed
independently. -/
def processUrls (stamps : Nat → String) (behaviors : Nat → UrlBehavior) (out_dir : String) :
    Nat → List String → List UrlResult
  | _, [] => []
  | i, url :: rest =>
    processUrl (stamps i) (behaviors i) out_dir url :: processUrls stamps behaviors out_dir (i + 1) rest

/-! ## Report composer (lines 273-422) -/

/-- Deterministic model of the content identifiers generated by
`make_msgid(domain="local").strip("<>")`. -/
def cidFor (k : Nat) : String := "cid" ++ toString k

/-- Insert into the `inline_cid_by_path` dict: overwrite the value when the key
is present (Python dict assignment), append otherwise. -/
def dictInsert (m : List (String × String)) (k v : String) : List (String × String) :=
  if m.any (fun kv => kv.1 == k) then m.map (fun kv => if kv.1 == k then (k, v) else kv)
  else m ++ [(k, v)]

/-- First-occurrence deduplication (model of building `set(...)` from the dict
keys; iteration order is modelled as first-insertion order, which no claim
depends on). -/
def dedupAcc (seen : List String) : List String → List String
  | [] => []
  | x :: xs => if seen.contains x then dedupAcc seen xs else x :: dedupAcc (x :: seen) xs

/-- Dict lookup with default. -/
def lookupD (m : List (String × String)) (k d : String) : String :=
  match m with
  | [] => d
  | (a, b) :: rest => if a == k then b else lookupD rest k d

/-- One table row of the report (the f-string at lines 309-316, with its
literal indentation). -/
def rowHtml (urlEscaped statusColor statusText safeMsg shotCell : String) : String :=
  "\n            <tr>\n              <td style=\"white-space:nowrap;\">" ++ urlEscaped ++
  "</td>\n              <td style=\"color:" ++ statusColor ++
  "; font-weight:bold; text-align:center;\">" ++ statusText ++
  "</td>\n              <td>" ++ safeMsg ++
  "</td>\n              <td><img style=\"width: 33%; height: 33%;\" src=\"" ++ shotCell ++
  "\"></td>\n            </tr>\n            "

/-- The row loop of `build_email_html_and_inline_map` (lines 288-317): builds
the row strings and the `Path -> content-id` map.  `k` is the content-id
counter.  Note that no filesystem check of any kind happens here. -/
def buildRows (inlineImages : Bool) :
    List UrlResult → Nat → List (String × String) → List String × List (String × String)
  | [], _, m => ([], m)
  | r :: rest, k, m =>
    let statusColor := if r.ok then "#28a745" else "#dc3545"
    let statusText := if r.ok then "PASS" else "FAIL"
    let shot : Option String :=
      match r.screenshot_path with
      | some p => some p
      | none => r.failure_screenshot_path
    match shot with
    | some sp =>
      if inlineImages then
        let cid := cidFor k
        let m2 := dictInsert m sp cid
        let rb := buildRows inlineImages rest (k + 1) m2
        (rowHtml (htmlEscape r.url) statusColor statusText (htmlEscape r.message)
           ("cid:" ++ cid) :: rb.1, rb.2)
      else
        let rb := buildRows inlineImages rest k m
        (rowHtml (htmlEscape r.url) statusColor statusText (htmlEscape r.message)
           (htmlEscape (pathName sp) ++ " (attached)") :: rb.1, rb.2)
    | none =>
      let rb := buildRows inlineImages rest k m
      (rowHtml (htmlEscape r.url) statusColor statusText (htmlEscape r.message)
         "(none)" :: rb.1, rb.2)

/-- The surrounding HTML document (lines 322-349), after the trailing
`.strip()`; `now` is the formatted `datetime.now()` value. -/
def wrapperHtml (now : String) (overallOk : Bool) (rowsJoined : String) : String :=
  let overallStatusText := if overallOk then "PASS" else "FAIL"
  let overallColor := if overallOk then "#28a745" else "#dc3545"
  "<html>\n    <body style=\"font-family:Segoe UI, Arial, sans-serif; font-size:13px;\">\n      <p>Hi,</p>\n      <p>We have completed the JP Agent Web checking and <strong>" ++
  overallStatusText ++ "</strong> result was found for (" ++ now ++
  "):</p>\n      <table border=\"1\" cellpadding=\"6\" cellspacing=\"0\" style=\"border-collapse:collapse;\">\n        <thead style=\"background:#f2f2f2;\">\n          <tr>\n            <th align=\"left\">URL</th>\n            <th>Status</th>\n            <th align=\"left\">Message</th>\n            <th align=\"left\">Screenshot</th>\n          </tr>\n        </thead>\n        <tbody>\n          " ++
  rowsJoined ++
  "\n        </tbody>\n      </table>\n      <p>\n        Overall result:\n        <strong style=\"color:" ++
  overallColor ++ ";\">\n          " ++
  (if overallOk then "ALL PASSED" else "SOME FAILURES") ++
  "\n        </strong>\n      </p>\n      <p>Regards,<br/>Mexican Boy</p>\n    </body>\n    </html>"

/-- Translation of `build_email_html_and_inline_map` (lines 278-351). -/
def build_email_html_and_inline_map (now : String) (results : List UrlResult)
    (overall_ok inline_images : Bool) : String × List (String × String) :=
  let rb := buildRows inline_images results 0 []
  (wrapperHtml now overall_ok (String.join rb.1), rb.2)

/-- A part of the composed MIME message.  `MIMEImage` attachments and
`MIMEBase` attachments (lines 410-415) differ only in encoding details that no
claim concerns, so both are `attachmentFile`. -/
inductive MimePart where
  | textPlain (body : String)
  | textHtml (body : String)
  | inlineImage (path : String) (cid : String)
  | attachmentFile (path : String)
  deriving DecidableEq, Repr

/-- The path a part carries, if any. -/
def partPath : MimePart → Option String
  | .textPlain _ => none
  | .textHtml _ => none
  | .inlineImage p _ => some p
  | .attachmentFile p => some p

/-- Number of parts of a message referring to path `p`. -/
def countPath (parts : List MimePart) (p : String) : Nat :=
  parts.countP (fun pt => partPath pt == some p)

/-- The composed message: headers plus the ordered part list (the
`multipart/related` root with its `multipart/alternative` branch is flattened
into the part list, preserving order). -/
structure EmailMessage where
  subject : String
  fromHeader : String
  toHeader : String
  ccHeader : Option String
  parts : List MimePart
  deriving DecidableEq, Repr

/-- Model of `email.utils.formataddr((name, addr))` for the script's use
(display-name quoting of specials is not modelled; the claims do not concern
the From header). -/
def formataddrM (name addr : String) : String :=
  if name == "" then addr else name ++ " <" ++ addr ++ ">"

/-- The fixed plain-text alternative body (line 378). -/
def plainFallback : String :=
  "This email contains HTML content. Please use an HTML-compatible email client."

/-- The inline-image loop of `compose_email_message` (lines 384-397): for each
path in the deduplicated key set, the file is opened inside `try`; a successful
read yields an inline part, a failure is logged to stderr and the part is
excluded. -/
def buildInlineParts (fs : List String) (inlineMap : List (String × String)) :
    List String → List MimePart × List String
  | [] => ([], [])
  | p :: rest =>
    let rb := buildInlineParts fs inlineMap rest
    if fs.contains p then
      (.inlineImage p (lookupD inlineMap p "") :: rb.1,
       ("[Embed Inline] OK: " ++ p) :: rb.2)
    else
      (rb.1, ("[Embed Inline] Failed: " ++ p) :: rb.2)

/-- The attachment loop of `compose_email_message` (lines 399-420): a candidate
whose resolved path is already in the inline set is skipped; otherwise the file
is opened inside `try`, a failure being logged and the part excluded. -/
def buildAttachParts (fs inlineSet : List String) :
    List String → List MimePart × List String
  | [] => ([], [])
  | p :: rest =>
    let rb := buildAttachParts fs inlineSet rest
    if inlineSet.contains p then
      (rb.1, rb.2)
    else if fs.contains p then
      (.attachmentFile p :: rb.1, ("[Attach] OK: " ++ p) :: rb.2)
    else
      (rb.1, ("[Attach] Failed: " ++ p) :: rb.2)

/-- Translation of `compose_email_message` (lines 354-422).  Returns the
composed message and the log lines it prints. -/
def compose_email_message (fs : List String) (smtp_from_name smtp_user : String)
    (email_to : PyStrOrList) (email_cc : List String) (subject html_body : String)
    (attachments : List String) (inline_cid_by_path : List (String × String)) :
    EmailMessage × List String :=
  let toHeader := if pyTruthySL email_to then pyJoin ", " email_to else ""
  let ccHeader := if email_cc.isEmpty then none else some (joinSep ", " email_cc)
  let inlineSet := dedupAcc [] (inline_cid_by_path.map Prod.fst)
  let ip := buildInlineParts fs inline_cid_by_path inlineSet
  let ap := buildAttachParts fs inlineSet attachments
  ({ subject := subject,
     fromHeader := formataddrM smtp_from_name smtp_user,
     toHeader := toHeader,
     ccHeader := ccHeader,
     parts := MimePart.textPlain plainFallback :: MimePart.textHtml html_body :: (ip.1 ++ ap.1) },
   ip.2 ++ ap.2)

/-! ## Recipient extraction and `send_via_smtp` (lines 425-459) -/

/-- Split an address list on top-level commas, treating a double-quoted section
(a quoted display name) as opaque.  Models the comma handling of the stdlib
`email.utils.getaddresses` address-list parser for the header shapes this
script produces. -/
def splitAddrChunks : List Char → Bool → List Char → List (List Char)
  | [], _, cur => [cur.reverse]
  | c :: rest, inQuote, cur =>
    if c == '"' then splitAddrChunks rest (!inQuote) (c :: cur)
    else if c == ',' && !inQuote then cur.reverse :: splitAddrChunks rest false []
    else splitAddrChunks rest inQuote (c :: cur)

/-- Extract the addr-spec from one chunk: the angle-bracketed portion when
present, else the whitespace-trimmed chunk. -/
def extractAddr (chunk : List Char) : String :=
  match chunk.dropWhile (fun c => c != '<') with
  | [] => ⟨trimWs chunk⟩
  | _ :: afterLt => ⟨afterLt.takeWhile (fun c => c != '>')⟩

/-- Model of `email.utils.getaddresses` from the Python standard library (the
script's only address parser), restricted to the address components: the field
values are joined with `", "` and split into addresses, tolerating commas
inside quoted display names; empty entries are dropped as the stdlib parser
does. -/
def getaddressesAddrs (vals : List String) : List String :=
  ((splitAddrChunks (joinSep ", " vals).toList false []).map extractAddr).filter
    (fun a => a != "")

/-- The recipient list `send_via_smtp` builds from the To and Cc headers
(lines 434-437), including the `if addr` truthiness filter. -/
def recipientsOf (msg : EmailMessage) : List String :=
  let toAddrs := (getaddressesAddrs [msg.toHeader]).filter (fun a => a != "")
  let ccAddrs :=
    (match msg.ccHeader with
     | some c => getaddressesAddrs [c]
     | none => []).filter (fun a => a != "")
  toAddrs ++ ccAddrs

/-- Outcome of `send_via_smtp`: either the early return with the warning
(lines 439-441), or a transmission with the given envelope sender and
recipient list (the SMTP/TLS session itself is external). -/
inductive SendOutcome where
  | skippedNoRecipients
  | sent (envelopeFrom : String) (recipients : List String)
  deriving DecidableEq, Repr

/-- Translation of `send_via_smtp` (lines 425-459): build the recipient list
from the headers; warn and return without touching the transport when it is
empty; otherwise transmit with envelope sender `smtp_user`. -/
def send_via_smtp (msg : EmailMessage) (smtp_user : String) : SendOutcome :=
  let recipients := recipientsOf msg
  if recipients.isEmpty then .skippedNoRecipients
  else .sent smtp_user recipients

/-! ## Attachment collection in `main` (lines 555-580) -/

/-- The candidate screenshot paths, in result order: `screenshot_path` then
`failure_screenshot_path` per result. -/
def candidatePaths : List UrlResult → List String
  | [] => []
  | r :: rest =>
    (match r.screenshot_path with | some p => [p] | none => []) ++
    (match r.failure_screenshot_path with | some p => [p] | none => []) ++
    candidatePaths rest

/-- The existence filter of lines 564-580: missing candidates are logged and
skipped, long paths merely warned about.  (`Path.resolve` is modelled as the
identity and never failing; `exists` and `is_file` are folded into `fs`
membership.) -/
def filterAttach (fs : List String) : List String → List String × List String
  | [] => ([], [])
  | p :: rest =>
    let rb := filterAttach fs rest
    if fs.contains p then
      (p :: rb.1,
       (if 230 < p.length then ["[Attach] Warning: path long: " ++ p] else []) ++ rb.2)
    else
      (rb.1, ("[Attach] Skipping (does not exist): " ++ p) :: rb.2)

/-- Lines 555-580 as a whole: no candidates are collected when
`email_attach_screens` is false. -/
def collectAttachments (fs : List String) (attachScreens : Bool)
    (results : List UrlResult) : List String × List String :=
  if attachScreens then filterAttach fs (candidatePaths results) else ([], [])

/-! ## `main` (lines 464-609) -/

/-- All external inputs of one run of `main`: the parsed CLI namespace, the
environment, the filesystem as seen by the email step, the per-URL browser
behavior and stamp oracle, the two formatted clock reads, and whether the
compose/send `try` block at lines 583-603 raises (with the formatted exception
text). -/
structure MainConfig where
  args : Args
  env : String → Option String
  fs : List String := []
  behaviors : Nat → UrlBehavior := fun _ => {}
  stamps : Nat → String := fun _ => "20250101_000000"
  now : String := "2025-01-01 00:00"
  nowHM : String := "0000"
  smtpError : Option String := none

/-- Observable outcome of a run of `main`. -/
structure MainOutcome where
  exit : Nat
  browserStarted : Bool
  results : List UrlResult
  overallOk : Bool
  emailAttempted : Bool
  sendOutcome : Option SendOutcome
  log : List String

/-- Both SMTP credentials are resolvable (CLI flag, named environment variable,
or default environment variable) and truthy. -/
def credsResolvable (cfg : MainConfig) : Prop :=
  pyTruthyOpt (resolveSmtpUser cfg.args cfg.env) = true ∧
  pyTruthyOpt (resolveSmtpPass cfg.args cfg.env) = true

instance (cfg : MainConfig) : Decidable (credsResolvable cfg) := by
  unfold credsResolvable; infer_instance

/-- The body of `main` after the credential pre-flight (lines 502-609). -/
def mainRun (cfg : MainConfig) (smtp_user : String) : MainOutcome :=
  let a := cfg.args
  let urls := pyOrList a.urls DEFAULT_URLS
  let out_dir := pyOrStr a.out_dir DEFAULT_OUT_DIR
  let rb := runLoop cfg.stamps cfg.behaviors out_dir 0 true urls
  let results := rb.1
  let overall_ok := rb.2
  let status_word := if overall_ok then "PASS" else "FAIL"
  let email_subject := pyOrStr a.email_subject
    ("GOCC – Health Check – JP AgentWeb URL – (" ++ cfg.nowHM ++ ") HKT – " ++ status_word)
  let bm := build_email_html_and_inline_map cfg.now results overall_ok a.email_inline_images
  let am := collectAttachments cfg.fs (effectiveAttachScreens a) results
  let email_to := resolveEmailTo a.email_to
  let email_cc := pyOrList a.email_cc DEFAULT_EMAIL_CC
  let cm := compose_email_message cfg.fs a.smtp_from_name smtp_user email_to email_cc
    email_subject bm.1 am.1 (if a.email_inline_images then bm.2 else [])
  match cfg.smtpError with
  | some e =>
    { exit := if overall_ok then 0 else 1, browserStarted := true,
      results := results, overallOk := overall_ok, emailAttempted := true,
      sendOutcome := none,
      log := am.2 ++ cm.2 ++ ["Failed to compose/send SMTP email: " ++ e] }
  | none =>
    { exit := if overall_ok then 0 else 1, browserStarted := true,
      results := results, overallOk := overall_ok, emailAttempted := true,
      sendOutcome := some (send_via_smtp cm.1 smtp_user),
      log := am.2 ++ cm.2 }

/-- Translation of `main` (lines 464-609): credential pre-flight with
`sys.exit(2)` before any browser work, then the run loop, report composition,
best-effort send, and the final exit status (`sys.exit(1)` on any validation
failure, normal return — exit 0 — otherwise). -/
def mainModel (cfg : MainConfig) : MainOutcome :=
  let smtpUser := resolveSmtpUser cfg.args cfg.env
  let smtpPass := resolveSmtpPass cfg.args cfg.env
  if pyTruthyOpt smtpUser = false then
    { exit := 2, browserStarted := false, results := [], overallOk := true,
      emailAttempted := false, sendOutcome := none,
      log := ["ERROR: SMTP username missing. Provide --smtp-user or set env SMTP_USERNAME."] }
  else if pyTruthyOpt smtpPass = false then
    { exit := 2, browserStarted := false, results := [], overallOk := true,
      emailAttempted := false, sendOutcome := none,
      log := ["ERROR: SMTP password missing. Provide --smtp-pass or set env SMTP_PASSWORD."] }
  else
    mainRun cfg (smtpUser.getD "")

end JPHealth

namespace JPHealth

/-! ## Helper lemmas -/

theorem contains_iff_memS (l : List String) (x : String) : l.contains x = true ↔ x ∈ l := by
  induction l with
  | nil => simp
  | cons a as ih => simp [List.contains_cons, ih]

theorem isPrefixOf_append_self (pat r : List Char) : pat.isPrefixOf (pat ++ r) = true := by
  induction pat with
  | nil => simp [List.isPrefixOf]
  | cons a as ih => simp [List.isPrefixOf, ih]

theorem replaceAllAux_no_occ (pat rep : List Char) :
    ∀ (fuel : Nat) (s : List Char), s.length ≤ fuel → hasSubstr pat s = false →
      replaceAllAux pat rep fuel s = s := by
  intro fuel
  induction fuel with
  | zero =>
    intro s hs _
    cases s with
    | nil => rfl
    | cons c rest => simp at hs
  | succ fuel ih =>
    intro s hs hno
    cases s with
    | nil => rfl
    | cons c rest =>
      simp only [hasSubstr, Bool.or_eq_false_iff] at hno
      have hlen : rest.length ≤ fuel := by simpa using hs
      simp [replaceAllAux, hno.1, ih rest hlen hno.2]

theorem replaceAllAux_head (p : Char) (pr rep rest : List Char) (fuel : Nat) :
    replaceAllAux (p :: pr) rep (fuel + 1) ((p :: pr) ++ rest) =
      rep ++ replaceAllAux (p :: pr) rep fuel rest := by
  have hpre := isPrefixOf_append_self (p :: pr) rest
  simp only [List.cons_append] at hpre ⊢
  simp [replaceAllAux, hpre, List.drop_left]

theorem replaceAllAux_single (c r : Char) :
    ∀ (fuel : Nat) (s : List Char), s.length ≤ fuel →
      replaceAllAux [c] [r] fuel s = s.map (fun x => if x = c then r else x) := by
  intro fuel
  induction fuel with
  | zero =>
    intro s hs
    cases s with
    | nil => rfl
    | cons x xs => simp at hs
  | succ fuel ih =>
    intro s hs
    cases s with
    | nil => rfl
    | cons x xs =>
      have hxs : xs.length ≤ fuel := by simpa using hs
      by_cases hxc : x = c
      · subst hxc
        have hp : [x].isPrefixOf (x :: xs) = true := by simp [List.isPrefixOf]
        simp [replaceAllAux, hp, ih xs hxs]
      · have hp : [c].isPrefixOf (x :: xs) = false := by
          simp [List.isPrefixOf]
          exact fun h => absurd h.symm hxc
        simp [replaceAllAux, hp, hxc, ih xs hxs]

theorem toList_mk (l : List Char) : (String.mk l).toList = l := rfl

theorem replaceAllL_single (c r : Char) (s : List Char) :
    replaceAllL [c] [r] s = s.map (fun x => if x = c then r else x) :=
  replaceAllAux_single c r s.length s (Nat.le_refl _)

theorem substChain (rl : List Char) :
    ((((rl.map (fun x => if x = '/' then '_' else x)).map
        (fun x => if x = '?' then '_' else x)).map
        (fun x => if x = ':' then '_' else x)).map
        (fun x => if x = '&' then '_' else x)).map
        (fun x => if x = '=' then '_' else x) = rl.map sanitizeChar := by
  simp only [List.map_map]
  refine List.map_congr_left ?_
  intro x _
  simp only [Function.comp_apply]
  by_cases h1 : x = '/'
  · subst h1; decide
  by_cases h2 : x = '?'
  · subst h2; decide
  by_cases h3 : x = ':'
  · subst h3; decide
  by_cases h4 : x = '&'
  · subst h4; decide
  by_cases h5 : x = '='
  · subst h5; decide
  simp [sanitizeChar, h1, h2, h3, h4, h5]

/-! ## C6 -/

/-- C6 counterexample: `sanitize` does not merely strip a leading scheme: on a
URL with an embedded second scheme occurrence it removes every occurrence of
`https://`, diverging from the claimed strip-the-prefix-then-replace-characters
description (embodied by `sanitizeSpec`). -/
theorem c6_counterexample :
    sanitize "https://a.com/?r=https://b.com" = "a.com__r_b.com" ∧
    sanitizeSpec "https://a.com/?r=https://b.com" = "a.com__r_https___b.com" ∧
    sanitize "https://a.com/?r=https://b.com" ≠ sanitizeSpec "https://a.com/?r=https://b.com" :=
  ⟨by decide, by decide, by decide⟩

/-- C6 (amended): `sanitize` is pure; it removes every occurrence of
`https://` and then `http://` anywhere in the URL (not only a leading scheme)
before replacing each of `:`, `/`, `?`, `&`, `=` with `_`.  Consequently, on
every URL in which the scheme substrings do not reoccur after the leading
`https://`, it agrees with the specification's strip-the-prefix description,
and in particular `sanitize "https://a.com/b?c=1" = "a.com_b_c_1"`. -/
theorem c6_theorem :
    sanitize "https://a.com/b?c=1" = "a.com_b_c_1" ∧
    ∀ rest : String, hasSubstrS "https://" rest = false → hasSubstrS "http://" rest = false →
      sanitize ("https://" ++ rest) = sanitizeSpec ("https://" ++ rest) := by
  constructor
  · decide
  · intro rest h1 h2
    obtain ⟨rl⟩ := rest
    have h1s : hasSubstr ('h' :: "ttps://".toList) rl = false := h1
    have h2s : hasSubstr "http://".toList rl = false := h2
    have hdata : ("https://" ++ String.mk rl).toList = "https://".toList ++ rl := rfl
    have s1 : replaceAllL "https://".toList "".toList ("https://".toList ++ rl) = rl := by
      unfold replaceAllL
      rw [show ("https://".toList ++ rl).length = (rl.length + 7) + 1 by
        simp [List.length_append]]
      rw [show ("" : String).toList = ([] : List Char) from rfl]
      rw [show "https://".toList = 'h' :: "ttps://".toList from rfl]
      rw [replaceAllAux_head]
      simpa using replaceAllAux_no_occ _ _ (rl.length + 7) rl (by omega) h1s
    have s2 : replaceAllL "http://".toList "".toList rl = rl := by
      unfold replaceAllL
      exact replaceAllAux_no_occ _ _ rl.length rl (Nat.le_refl _) h2s
    simp only [sanitize, strReplace, sanitizeSpec, toList_mk]
    rw [hdata, s1, s2]
    rw [show ("/" : String).toList = ['/'] from rfl, show ("?" : String).toList = ['?'] from rfl,
        show (":" : String).toList = [':'] from rfl, show ("&" : String).toList = ['&'] from rfl,
        show ("=" : String).toList = ['='] from rfl, show ("_" : String).toList = ['_'] from rfl]
    simp only [replaceAllL_single]
    rw [substChain]
    have hpre : "https://".toList.isPrefixOf ("https://".toList ++ rl) = true :=
      isPrefixOf_append_self _ _
    rw [if_pos hpre]
    rw [show (8 : Nat) = ("https://".toList).length from rfl, List.drop_left]

/-- C6 witness: the agreement instance at the specification's own example. -/
theorem c6_witness :
    sanitize ("https://" ++ "a.com/b?c=1") = sanitizeSpec ("https://" ++ "a.com/b?c=1") :=
  c6_theorem.2 "a.com/b?c=1" (by decide) (by decide)

end JPHealth

namespace JPHealth

/-! ## Run-loop lemmas and C2 -/

theorem processUrl_url (stampv : String) (b : UrlBehavior) (d url : String) :
    (processUrl stampv b d url).url = url := by
  unfold processUrl
  cases b.validationError with
  | some e => rfl
  | none =>
    cases b.screenshotError with
    | some e => rfl
    | none => rfl

theorem runLoop_eq (stamps : Nat → String) (behaviors : Nat → UrlBehavior) (d : String) :
    ∀ (urls : List String) (i : Nat) (ov : Bool),
      runLoop stamps behaviors d i ov urls =
        (processUrls stamps behaviors d i urls,
         ov && (processUrls stamps behaviors d i urls).all (fun r => r.ok)) := by
  intro urls
  induction urls with
  | nil => intro i ov; simp [runLoop, processUrls]
  | cons u rest ih =>
    intro i ov
    simp only [runLoop, processUrls]
    rw [ih]
    simp [List.all_cons, Bool.and_assoc]

theorem runLoop_snd_all (stamps : Nat → String) (behaviors : Nat → UrlBehavior)
    (d : String) (urls : List String) :
    (runLoop stamps behaviors d 0 true urls).2 =
      (runLoop stamps behaviors d 0 true urls).1.all (fun r => r.ok) := by
  rw [runLoop_eq]
  simp

theorem processUrls_length (stamps : Nat → String) (behaviors : Nat → UrlBehavior)
    (d : String) :
    ∀ (urls : List String) (i : Nat),
      (processUrls stamps behaviors d i urls).length = urls.length := by
  intro urls
  induction urls with
  | nil => intro i; rfl
  | cons u rest ih => intro i; simp [processUrls, ih]

theorem processUrls_map_url (stamps : Nat → String) (behaviors : Nat → UrlBehavior)
    (d : String) :
    ∀ (urls : List String) (i : Nat),
      (processUrls stamps behaviors d i urls).map (fun r => r.url) = urls := by
  intro urls
  induction urls with
  | nil => intro i; rfl
  | cons u rest ih => intro i; simp [processUrls, ih, processUrl_url]

theorem processUrls_getElem? (stamps : Nat → String) (behaviors : Nat → UrlBehavior)
    (d : String) :
    ∀ (urls : List String) (i j : Nat),
      (processUrls stamps behaviors d i urls)[j]? =
        (urls[j]?).map (fun u => processUrl (stamps (i + j)) (behaviors (i + j)) d u) := by
  intro urls
  induction urls with
  | nil => intro i j; simp [processUrls]
  | cons u rest ih =>
    intro i j
    cases j with
    | zero => simp [processUrls]
    | succ j =>
      simp only [processUrls, List.getElem?_cons_succ]
      rw [ih (i + 1) j, show i + 1 + j = i + (j + 1) by omega]

/-- C2: the run loop produces exactly one `UrlResult` per input URL, in input
order; the overall flag is `true` iff every result's `ok` is `true`; and each
result is determined by its own URL and that URL's browser behavior alone — a
failure of one URL never changes or suppresses the result of another (no
short-circuiting). -/
theorem c2_aggregator (stamps : Nat → String) (behaviors : Nat → UrlBehavior)
    (out_dir : String) (urls : List String) :
    (runLoop stamps behaviors out_dir 0 true urls).1.length = urls.length ∧
    (runLoop stamps behaviors out_dir 0 true urls).1.map (fun r => r.url) = urls ∧
    (runLoop stamps behaviors out_dir 0 true urls).2 =
      (runLoop stamps behaviors out_dir 0 true urls).1.all (fun r => r.ok) ∧
    ∀ j : Nat,
      (runLoop stamps behaviors out_dir 0 true urls).1[j]? =
        (urls[j]?).map (fun u => processUrl (stamps j) (behaviors j) out_dir u) := by
  refine ⟨?_, ?_, runLoop_snd_all _ _ _ _, ?_⟩
  · rw [runLoop_eq]; exact processUrls_length _ _ _ urls 0
  · rw [runLoop_eq]; exact processUrls_map_url _ _ _ urls 0
  · intro j
    rw [runLoop_eq]
    simpa using processUrls_getElem? stamps behaviors out_dir urls 0 j

/-! ## C9 -/

/-- C9: the effective attach-screenshots setting is `true` for every parsed
command line: the `store_true` flag value is or-ed with
`DEFAULT_EMAIL_ATTACH_SCREENS = true`, so omitting `--email-attach-screens`
cannot disable attaching and the advertised toggle has no effect. -/
theorem c9_attach_toggle_no_effect :
    DEFAULT_EMAIL_ATTACH_SCREENS = true ∧
    ∀ a : Args, effectiveAttachScreens a = true := by
  refine ⟨rfl, fun a => ?_⟩
  unfold effectiveAttachScreens DEFAULT_EMAIL_ATTACH_SCREENS
  cases a.email_attach_screens <;> rfl

/-! ## C10 -/

/-- C10: with `--email-to` omitted the resolved recipient value is the plain
string `"TO_EMAIL"`; joining it with `", "` iterates over its characters, so
the composed message's To header is `"T, O, _, E, M, A, I, L"`, which
address-list parsing turns into eight bogus single-character recipients rather
than an empty list. -/
theorem c10_default_email_to :
    resolveEmailTo none = PyStrOrList.str "TO_EMAIL" ∧
    pyJoin ", " (resolveEmailTo none) = "T, O, _, E, M, A, I, L" ∧
    (compose_email_message [] "" "user@example.com" (resolveEmailTo none) [] "s" "b" [] []).1.toHeader =
      "T, O, _, E, M, A, I, L" ∧
    recipientsOf (compose_email_message [] "" "user@example.com" (resolveEmailTo none) [] "s" "b" [] []).1 =
      ["T", "O", "_", "E", "M", "A", "I", "L"] ∧
    (recipientsOf (compose_email_message [] "" "user@example.com" (resolveEmailTo none) [] "s" "b" [] []).1).length = 8 := by
  refine ⟨by decide, by decide, by decide, by decide, by decide⟩

/-! ## C8 -/

/-- C8: `send_via_smtp` builds its recipient list by address-list parsing of
the message's To and Cc headers; when that list is empty it returns without
calling the SMTP transport, and whenever the transport is called the recipient
list is exactly the parsed one and nonempty — the message is never sent to
zero recipients. -/
theorem c8_no_zero_recipient_send (msg : EmailMessage) (u : String) :
    (recipientsOf msg = [] → send_via_smtp msg u = SendOutcome.skippedNoRecipients) ∧
    (recipientsOf msg ≠ [] → send_via_smtp msg u = SendOutcome.sent u (recipientsOf msg)) ∧
    (∀ ef rs, send_via_smtp msg u = SendOutcome.sent ef rs →
      ef = u ∧ rs = recipientsOf msg ∧ rs ≠ []) := by
  refine ⟨fun h => ?_, fun h => ?_, fun ef rs h => ?_⟩
  · simp [send_via_smtp, h]
  · cases hl : recipientsOf msg with
    | nil => exact absurd hl h
    | cons a as =>
      simp only [send_via_smtp]
      rw [hl]
      simp
  · cases hl : recipientsOf msg with
    | nil =>
      simp only [send_via_smtp] at h
      rw [hl] at h
      simp at h
    | cons a as =>
      simp only [send_via_smtp] at h
      rw [hl] at h
      simp at h
      refine ⟨h.1.symm, h.2.symm, ?_⟩
      rw [← h.2]
      simp

/-- C8 witness: a message with empty headers is skipped; a message whose To
header contains a display-name-quoted address with an embedded comma is parsed
into exactly its two real addresses (not naively split) and transmitted. -/
theorem c8_witness :
    send_via_smtp ⟨"", "", "", none, []⟩ "u@example.com" = SendOutcome.skippedNoRecipients ∧
    send_via_smtp ⟨"s", "f", "\"Doe, John\" <j@d.com>, a@b.com", none, []⟩ "u@example.com" =
      SendOutcome.sent "u@example.com" ["j@d.com", "a@b.com"] := by
  constructor
  · exact (c8_no_zero_recipient_send ⟨"", "", "", none, []⟩ "u@example.com").1 (by decide)
  · have h := (c8_no_zero_recipient_send ⟨"s", "f", "\"Doe, John\" <j@d.com>, a@b.com", none, []⟩
      "u@example.com").2.1 (by decide)
    rw [h]
    rw [show recipientsOf ⟨"s", "f", "\"Doe, John\" <j@d.com>, a@b.com", none, []⟩ =
      ["j@d.com", "a@b.com"] by decide]

/-! ## C5 -/

/-- C5: in `validate_ui`, any computed opacity string that `float()` parses to
a value equal to zero (for example `"0"`) fails the URL with the
hidden-element assertion, while any opacity string that `float()` cannot parse
(for example `"abc"`) is tolerated, not an error: with every other check
passing, validation succeeds. -/
theorem c5_opacity_parsing (url selector expText : String) (minW minH : Int)
    (st : ComputedStyle) (obs : PageObservation)
    (hf : obs.elementFound = true) (hd : obs.isDisplayed = true)
    (hcss : obs.css = some st)
    (hdisp : st.display ≠ "none") (hvis : st.visibility ≠ "hidden") :
    (∀ v, pyFloat st.opacity = some v → pyFloatIsZero v = true →
      validate_ui url selector expText false minW minH obs =
        .error ("Element opacity 0 (invisible) on " ++ url)) ∧
    (pyFloat st.opacity = none → String.mk (trimWs obs.text.toList) = expText →
      validate_ui url selector expText false minW minH obs = .ok ()) := by
  constructor
  · intro v hv hz
    simp [validate_ui, hf, hd, hcss, hdisp, hvis, hv, hz]
  · intro hn htext
    have htext2 : String.mk (trimWs obs.text.data) = expText := htext
    simp [validate_ui, hf, hd, hcss, hdisp, hvis, hn, htext, htext2]

/-- C5 witness: concrete observations exercising both branches — the zero
branch twice, with the plain `"0"` and with the underscore spelling `"0_0"`
(which Python's `float` also parses to zero), and the unparseable branch with
`"abc"`. -/
theorem c5_witness :
    validate_ui "https://a.com" "h1" "Title" false 10 5
      { elementFound := true, isDisplayed := true, width := 0, height := 0,
        css := some { display := "block", visibility := "visible", opacity := "0",
                      color := "", backgroundColor := "", fontSize := "", position := "static" },
        text := "Title" } =
      .error "Element opacity 0 (invisible) on https://a.com" ∧
    validate_ui "https://a.com" "h1" "Title" false 10 5
      { elementFound := true, isDisplayed := true, width := 0, height := 0,
        css := some { display := "block", visibility := "visible", opacity := "0_0",
                      color := "", backgroundColor := "", fontSize := "", position := "static" },
        text := "Title" } =
      .error "Element opacity 0 (invisible) on https://a.com" ∧
    validate_ui "https://a.com" "h1" "Title" false 10 5
      { elementFound := true, isDisplayed := true, width := 0, height := 0,
        css := some { display := "block", visibility := "visible", opacity := "abc",
                      color := "", backgroundColor := "", fontSize := "", position := "static" },
        text := " Title " } = .ok () := by
  refine ⟨?_, ?_, ?_⟩
  · exact (c5_opacity_parsing "https://a.com" "h1" "Title" 10 5
      { display := "block", visibility := "visible", opacity := "0",
        color := "", backgroundColor := "", fontSize := "", position := "static" }
      { elementFound := true, isDisplayed := true, width := 0, height := 0,
        css := some { display := "block", visibility := "visible", opacity := "0",
                      color := "", backgroundColor := "", fontSize := "", position := "static" },
        text := "Title" }
      rfl rfl rfl (by decide) (by decide)).1 (0, 0) (by decide) (by decide)
  · exact (c5_opacity_parsing "https://a.com" "h1" "Title" 10 5
      { display := "block", visibility := "visible", opacity := "0_0",
        color := "", backgroundColor := "", fontSize := "", position := "static" }
      { elementFound := true, isDisplayed := true, width := 0, height := 0,
        css := some { display := "block", visibility := "visible", opacity := "0_0",
                      color := "", backgroundColor := "", fontSize := "", position := "static" },
        text := "Title" }
      rfl rfl rfl (by decide) (by decide)).1 (0, 0) (by decide) (by decide)
  · exact (c5_opacity_parsing "https://a.com" "h1" "Title" 10 5
      { display := "block", visibility := "visible", opacity := "abc",
        color := "", backgroundColor := "", fontSize := "", position := "static" }
      { elementFound := true, isDisplayed := true, width := 0, height := 0,
        css := some { display := "block", visibility := "visible", opacity := "abc",
                      color := "", backgroundColor := "", fontSize := "", position := "static" },
        text := " Title " }
      rfl rfl rfl (by decide) (by decide)).2 (by decide) (by decide)

end JPHealth

namespace JPHealth

/-! ## Composition lemmas for C3 and C7 -/

theorem mem_dedupAcc :
    ∀ (l seen : List String) (x : String),
      x ∈ dedupAcc seen l ↔ (x ∈ l ∧ ¬ x ∈ seen) := by
  intro l
  induction l with
  | nil => intro seen x; simp [dedupAcc]
  | cons y ys ih =>
    intro seen x
    by_cases hy : y ∈ seen
    · rw [show dedupAcc seen (y :: ys) = dedupAcc seen ys by
        simp only [dedupAcc]
        rw [if_pos ((contains_iff_memS seen y).mpr hy)]]
      rw [ih seen x]
      constructor
      · exact fun h => ⟨List.mem_cons_of_mem _ h.1, h.2⟩
      · rintro ⟨hmem, hns⟩
        rcases List.mem_cons.mp hmem with he | he
        · subst he; exact absurd hy hns
        · exact ⟨he, hns⟩
    · have hcF : seen.contains y = false := by
        cases hc : seen.contains y with
        | false => rfl
        | true => exact absurd ((contains_iff_memS seen y).mp hc) hy
      rw [show dedupAcc seen (y :: ys) = y :: dedupAcc (y :: seen) ys by
        simp only [dedupAcc]
        rw [hcF]
        simp only [Bool.false_eq_true, if_false]]
      constructor
      · intro hmem
        rcases List.mem_cons.mp hmem with he | he
        · subst he; exact ⟨List.mem_cons_self _ _, hy⟩
        · have := (ih (y :: seen) x).mp he
          exact ⟨List.mem_cons_of_mem _ this.1,
                 fun hs => this.2 (List.mem_cons_of_mem _ hs)⟩
      · rintro ⟨hmem, hns⟩
        by_cases hxy : x = y
        · subst hxy; exact List.mem_cons_self _ _
        · rcases List.mem_cons.mp hmem with he | he
          · exact absurd he hxy
          · refine List.mem_cons_of_mem _ ((ih (y :: seen) x).mpr ⟨he, ?_⟩)
            intro hs
            rcases List.mem_cons.mp hs with h2 | h2
            · exact hxy h2
            · exact hns h2

theorem nodup_dedupAcc :
    ∀ (l seen : List String), (dedupAcc seen l).Nodup := by
  intro l
  induction l with
  | nil => intro seen; simp [dedupAcc]
  | cons y ys ih =>
    intro seen
    by_cases hy : y ∈ seen
    · rw [show dedupAcc seen (y :: ys) = dedupAcc seen ys by
        simp only [dedupAcc]
        rw [if_pos ((contains_iff_memS seen y).mpr hy)]]
      exact ih seen
    · have hcF : seen.contains y = false := by
        cases hc : seen.contains y with
        | false => rfl
        | true => exact absurd ((contains_iff_memS seen y).mp hc) hy
      rw [show dedupAcc seen (y :: ys) = y :: dedupAcc (y :: seen) ys by
        simp only [dedupAcc]
        rw [hcF]
        simp only [Bool.false_eq_true, if_false]]
      refine List.Nodup.cons ?_ (ih (y :: seen))
      intro hmem
      exact ((mem_dedupAcc ys (y :: seen) y).mp hmem).2 (List.mem_cons_self y seen)

theorem buildInlineParts_path_mem (fs : List String) (im : List (String × String)) :
    ∀ (ks : List String) (pt : MimePart), pt ∈ (buildInlineParts fs im ks).1 →
      ∀ p, partPath pt = some p → p ∈ fs := by
  intro ks
  induction ks with
  | nil => intro pt h; simp [buildInlineParts] at h
  | cons k rest ih =>
    intro pt h p hp
    by_cases hk : k ∈ fs
    · simp only [buildInlineParts] at h
      rw [if_pos ((contains_iff_memS fs k).mpr hk)] at h
      rcases List.mem_cons.mp h with he | he
      · subst he
        simp only [partPath, Option.some.injEq] at hp
        exact hp ▸ hk
      · exact ih pt he p hp
    · have hkF : fs.contains k = false := by
        cases hc : fs.contains k with
        | false => rfl
        | true => exact absurd ((contains_iff_memS fs k).mp hc) hk
      simp only [buildInlineParts] at h
      rw [hkF] at h
      simp only [Bool.false_eq_true, if_false] at h
      exact ih pt h p hp

theorem buildInlineParts_not_attach (fs : List String) (im : List (String × String)) :
    ∀ (ks : List String) (p : String),
      ¬ MimePart.attachmentFile p ∈ (buildInlineParts fs im ks).1 := by
  intro ks
  induction ks with
  | nil => intro p h; simp [buildInlineParts] at h
  | cons k rest ih =>
    intro p h
    by_cases hk : k ∈ fs
    · simp only [buildInlineParts] at h
      rw [if_pos ((contains_iff_memS fs k).mpr hk)] at h
      rcases List.mem_cons.mp h with he | he
      · exact MimePart.noConfusion he
      · exact ih p he
    · have hkF : fs.contains k = false := by
        cases hc : fs.contains k with
        | false => rfl
        | true => exact absurd ((contains_iff_memS fs k).mp hc) hk
      simp only [buildInlineParts] at h
      rw [hkF] at h
      simp only [Bool.false_eq_true, if_false] at h
      exact ih p h

theorem buildInlineParts_missing_logged (fs : List String) (im : List (String × String)) :
    ∀ (ks : List String) (p : String), p ∈ ks → fs.contains p = false →
      ("[Embed Inline] Failed: " ++ p) ∈ (buildInlineParts fs im ks).2 := by
  intro ks
  induction ks with
  | nil => intro p h _; simp at h
  | cons k rest ih =>
    intro p hmem hp
    rcases List.mem_cons.mp hmem with he | he
    · subst he
      simp only [buildInlineParts]
      rw [hp]
      simp only [Bool.false_eq_true, if_false]
      exact List.mem_cons_self _ _
    · by_cases hk : k ∈ fs
      · simp only [buildInlineParts]
        rw [if_pos ((contains_iff_memS fs k).mpr hk)]
        exact List.mem_cons_of_mem _ (ih p he hp)
      · have hkF : fs.contains k = false := by
          cases hc : fs.contains k with
          | false => rfl
          | true => exact absurd ((contains_iff_memS fs k).mp hc) hk
        simp only [buildInlineParts]
        rw [hkF]
        simp only [Bool.false_eq_true, if_false]
        exact List.mem_cons_of_mem _ (ih p he hp)

theorem buildAttachParts_path (fs inlineSet : List String) :
    ∀ (ps : List String) (pt : MimePart), pt ∈ (buildAttachParts fs inlineSet ps).1 →
      ∀ p, partPath pt = some p → p ∈ fs ∧ ¬ p ∈ inlineSet := by
  intro ps
  induction ps with
  | nil => intro pt h; simp [buildAttachParts] at h
  | cons a rest ih =>
    intro pt h p hp
    by_cases ha : a ∈ inlineSet
    · simp only [buildAttachParts] at h
      rw [if_pos ((contains_iff_memS inlineSet a).mpr ha)] at h
      exact ih pt h p hp
    · have haF : inlineSet.contains a = false := by
        cases hc : inlineSet.contains a with
        | false => rfl
        | true => exact absurd ((contains_iff_memS inlineSet a).mp hc) ha
      by_cases hfa : a ∈ fs
      · simp only [buildAttachParts] at h
        rw [haF] at h
        simp only [Bool.false_eq_true, if_false] at h
        rw [if_pos ((contains_iff_memS fs a).mpr hfa)] at h
        rcases List.mem_cons.mp h with he | he
        · subst he
          simp only [partPath, Option.some.injEq] at hp
          subst hp
          exact ⟨hfa, ha⟩
        · exact ih pt he p hp
      · have hfaF : fs.contains a = false := by
          cases hc : fs.contains a with
          | false => rfl
          | true => exact absurd ((contains_iff_memS fs a).mp hc) hfa
        simp only [buildAttachParts] at h
        rw [haF, hfaF] at h
        simp only [Bool.false_eq_true, if_false] at h
        exact ih pt h p hp

theorem buildAttachParts_missing_logged (fs inlineSet : List String) :
    ∀ (ps : List String) (p : String), p ∈ ps → fs.contains p = false →
      ¬ p ∈ inlineSet →
      ("[Attach] Failed: " ++ p) ∈ (buildAttachParts fs inlineSet ps).2 := by
  intro ps
  induction ps with
  | nil => intro p h _ _; simp at h
  | cons a rest ih =>
    intro p hmem hp hpin
    have hpF : inlineSet.contains p = false := by
      cases hc : inlineSet.contains p with
      | false => rfl
      | true => exact absurd ((contains_iff_memS inlineSet p).mp hc) hpin
    rcases List.mem_cons.mp hmem with he | he
    · subst he
      simp only [buildAttachParts]
      rw [hpF, hp]
      simp only [Bool.false_eq_true, if_false]
      exact List.mem_cons_self _ _
    · by_cases ha : a ∈ inlineSet
      · simp only [buildAttachParts]
        rw [if_pos ((contains_iff_memS inlineSet a).mpr ha)]
        exact ih p he hp hpin
      · have haF : inlineSet.contains a = false := by
          cases hc : inlineSet.contains a with
          | false => rfl
          | true => exact absurd ((contains_iff_memS inlineSet a).mp hc) ha
        by_cases hfa : a ∈ fs
        · simp only [buildAttachParts]
          rw [haF]
          simp only [Bool.false_eq_true, if_false]
          rw [if_pos ((contains_iff_memS fs a).mpr hfa)]
          exact List.mem_cons_of_mem _ (ih p he hp hpin)
        · have hfaF : fs.contains a = false := by
            cases hc : fs.contains a with
            | false => rfl
            | true => exact absurd ((contains_iff_memS fs a).mp hc) hfa
          simp only [buildAttachParts]
          rw [haF, hfaF]
          simp only [Bool.false_eq_true, if_false]
          exact List.mem_cons_of_mem _ (ih p he hp hpin)

theorem countPath_cons (pt : MimePart) (parts : List MimePart) (p : String) :
    countPath (pt :: parts) p =
      (if partPath pt = some p then 1 else 0) + countPath parts p := by
  simp only [countPath, List.countP_cons]
  by_cases h : partPath pt = some p <;> simp [h] <;> omega

theorem buildAttachParts_countPath_zero (fs inlineSet : List String) (p : String)
    (hp : p ∈ inlineSet) :
    ∀ ps : List String, countPath (buildAttachParts fs inlineSet ps).1 p = 0 := by
  intro ps
  induction ps with
  | nil => rfl
  | cons a rest ih =>
    by_cases ha : a ∈ inlineSet
    · simp only [buildAttachParts]
      rw [if_pos ((contains_iff_memS inlineSet a).mpr ha)]
      exact ih
    · have haF : inlineSet.contains a = false := by
        cases hc : inlineSet.contains a with
        | false => rfl
        | true => exact absurd ((contains_iff_memS inlineSet a).mp hc) ha
      have hap : ¬ a = p := fun he => ha (he ▸ hp)
      by_cases hfa : a ∈ fs
      · simp only [buildAttachParts]
        rw [haF]
        simp only [Bool.false_eq_true, if_false]
        rw [if_pos ((contains_iff_memS fs a).mpr hfa)]
        show countPath (MimePart.attachmentFile a :: (buildAttachParts fs inlineSet rest).1) p = 0
        rw [countPath_cons]
        simp only [partPath]
        rw [if_neg (fun hq => hap (Option.some.inj hq)), ih]
      · have hfaF : fs.contains a = false := by
          cases hc : fs.contains a with
          | false => rfl
          | true => exact absurd ((contains_iff_memS fs a).mp hc) hfa
        simp only [buildAttachParts]
        rw [haF, hfaF]
        simp only [Bool.false_eq_true, if_false]
        exact ih

theorem buildInlineParts_countPath_zero (fs : List String) (im : List (String × String))
    (p : String) :
    ∀ ks : List String, ¬ p ∈ ks → countPath (buildInlineParts fs im ks).1 p = 0 := by
  intro ks
  induction ks with
  | nil => intro _; rfl
  | cons k rest ih =>
    intro hnp
    have hkp : ¬ k = p := fun he => hnp (he ▸ List.mem_cons_self k rest)
    have hrest : ¬ p ∈ rest := fun hm => hnp (List.mem_cons_of_mem _ hm)
    by_cases hk : k ∈ fs
    · simp only [buildInlineParts]
      rw [if_pos ((contains_iff_memS fs k).mpr hk)]
      show countPath (MimePart.inlineImage k (lookupD im k "") ::
        (buildInlineParts fs im rest).1) p = 0
      rw [countPath_cons]
      simp only [partPath]
      rw [if_neg (fun hq => hkp (Option.some.inj hq)), ih hrest]
    · have hkF : fs.contains k = false := by
        cases hc : fs.contains k with
        | false => rfl
        | true => exact absurd ((contains_iff_memS fs k).mp hc) hk
      simp only [buildInlineParts]
      rw [hkF]
      simp only [Bool.false_eq_true, if_false]
      exact ih hrest

theorem buildInlineParts_countPath_one (fs : List String) (im : List (String × String))
    (p : String) (hfs : p ∈ fs) :
    ∀ ks : List String, ks.Nodup → p ∈ ks →
      countPath (buildInlineParts fs im ks).1 p = 1 := by
  intro ks
  induction ks with
  | nil => intro _ h; simp at h
  | cons k rest ih =>
    intro hnd hmem
    have hndr := (List.nodup_cons.mp hnd).2
    have hknr := (List.nodup_cons.mp hnd).1
    rcases List.mem_cons.mp hmem with he | he
    · subst he
      simp only [buildInlineParts]
      rw [if_pos ((contains_iff_memS fs p).mpr hfs)]
      show countPath (MimePart.inlineImage p (lookupD im p "") ::
        (buildInlineParts fs im rest).1) p = 1
      rw [countPath_cons]
      simp only [partPath]
      simp only [if_true]
      rw [buildInlineParts_countPath_zero fs im p rest hknr]
    · have hkp : ¬ k = p := fun heq => hknr (heq ▸ he)
      by_cases hk : k ∈ fs
      · simp only [buildInlineParts]
        rw [if_pos ((contains_iff_memS fs k).mpr hk)]
        show countPath (MimePart.inlineImage k (lookupD im k "") ::
          (buildInlineParts fs im rest).1) p = 1
        rw [countPath_cons]
        simp only [partPath]
        rw [if_neg (fun hq => hkp (Option.some.inj hq)), ih hndr he]
      · have hkF : fs.contains k = false := by
          cases hc : fs.contains k with
          | false => rfl
          | true => exact absurd ((contains_iff_memS fs k).mp hc) hk
        simp only [buildInlineParts]
        rw [hkF]
        simp only [Bool.false_eq_true, if_false]
        exact ih hndr he

end JPHealth

namespace JPHealth

/-! ## C7 -/

/-- C7: in `compose_email_message`, an attachment candidate whose (resolved)
path appears in the inline-image map is never added as a plain attachment part,
for every attachments list and inline map; and a screenshot that is embedded
inline (its path is an inline-map key and the file exists) occurs in the
composed message exactly once. -/
theorem c7_attachment_dedup (fs : List String) (fromName user : String)
    (email_to : PyStrOrList) (email_cc : List String) (subject body : String)
    (attachments : List String) (im : List (String × String)) :
    (∀ p, p ∈ im.map Prod.fst → p ∈ fs →
      countPath (compose_email_message fs fromName user email_to email_cc subject body
        attachments im).1.parts p = 1) ∧
    (∀ p, MimePart.attachmentFile p ∈ (compose_email_message fs fromName user email_to
        email_cc subject body attachments im).1.parts → ¬ p ∈ im.map Prod.fst) := by
  constructor
  · intro p hkey hfs
    have hdedupmem : p ∈ dedupAcc [] (im.map Prod.fst) :=
      (mem_dedupAcc (im.map Prod.fst) [] p).mpr ⟨hkey, by simp⟩
    show countPath (MimePart.textPlain plainFallback :: MimePart.textHtml body ::
      ((buildInlineParts fs im (dedupAcc [] (im.map Prod.fst))).1 ++
       (buildAttachParts fs (dedupAcc [] (im.map Prod.fst)) attachments).1)) p = 1
    rw [countPath_cons]
    simp only [partPath]
    rw [if_neg (fun h => Option.noConfusion h)]
    rw [countPath_cons]
    simp only [partPath]
    rw [if_neg (fun h => Option.noConfusion h)]
    simp only [Nat.zero_add]
    show (((buildInlineParts fs im (dedupAcc [] (im.map Prod.fst))).1 ++
       (buildAttachParts fs (dedupAcc [] (im.map Prod.fst)) attachments).1).countP
         (fun pt => partPath pt == some p)) = 1
    rw [List.countP_append]
    have h1 : countPath (buildInlineParts fs im (dedupAcc [] (im.map Prod.fst))).1 p = 1 :=
      buildInlineParts_countPath_one fs im p hfs _
        (nodup_dedupAcc (im.map Prod.fst) []) hdedupmem
    have h2 : countPath (buildAttachParts fs (dedupAcc [] (im.map Prod.fst)) attachments).1 p = 0 :=
      buildAttachParts_countPath_zero fs _ p hdedupmem attachments
    simp only [countPath] at h1 h2
    rw [h1, h2]
  · intro p hmem hkey
    have hparts : MimePart.attachmentFile p ∈
        (MimePart.textPlain plainFallback :: MimePart.textHtml body ::
          ((buildInlineParts fs im (dedupAcc [] (im.map Prod.fst))).1 ++
           (buildAttachParts fs (dedupAcc [] (im.map Prod.fst)) attachments).1)) := hmem
    rcases List.mem_cons.mp hparts with he | hparts2
    · exact MimePart.noConfusion he
    rcases List.mem_cons.mp hparts2 with he | hparts3
    · exact MimePart.noConfusion he
    rcases List.mem_append.mp hparts3 with hin | hatt
    · exact buildInlineParts_not_attach fs im _ p hin
    · have := buildAttachParts_path fs _ attachments (MimePart.attachmentFile p) hatt p rfl
      exact this.2 ((mem_dedupAcc (im.map Prod.fst) [] p).mpr ⟨hkey, by simp⟩)

/-- C7 witness: a concrete composition in which `x.png` is inline-embedded and
also an attachment candidate — it appears exactly once in the message — while
`y.png` is attached and therefore not an inline-map key. -/
theorem c7_witness :
    countPath (compose_email_message ["x.png", "y.png"] "" "u" (PyStrOrList.list ["a@b"])
      [] "s" "b" ["x.png", "y.png"] [("x.png", "cid0")]).1.parts "x.png" = 1 ∧
    ¬ "y.png" ∈ ([("x.png", "cid0")].map Prod.fst) := by
  constructor
  · exact (c7_attachment_dedup ["x.png", "y.png"] "" "u" (PyStrOrList.list ["a@b"])
      [] "s" "b" ["x.png", "y.png"] [("x.png", "cid0")]).1 "x.png" (by decide) (by decide)
  · exact (c7_attachment_dedup ["x.png", "y.png"] "" "u" (PyStrOrList.list ["a@b"])
      [] "s" "b" ["x.png", "y.png"] [("x.png", "cid0")]).2 "y.png" (by decide)

/-! ## C3 -/

set_option maxRecDepth 100000 in
/-- C3 counterexample: `build_email_html_and_inline_map` performs no
filesystem check whatsoever: for a result whose screenshot path does not exist
(empty filesystem), the path is still recorded in the inline map and the HTML
body still references its content-id inline, contradicting the claim that
every screenshot path is checked to exist on disk before being referenced
inline in the report HTML. -/
theorem c3_counterexample :
    (build_email_html_and_inline_map "2025-01-01 00:00"
        [{ url := "https://a.com", ok := true, message := "OK",
           screenshot_path := some "shots/x.png" }] true true).2 =
      [("shots/x.png", "cid0")] ∧
    hasSubstrS "src=\"cid:cid0\""
      (build_email_html_and_inline_map "2025-01-01 00:00"
        [{ url := "https://a.com", ok := true, message := "OK",
           screenshot_path := some "shots/x.png" }] true true).1 = true ∧
    ¬ (∀ (fs : List String) (now : String) (results : List UrlResult) (ov : Bool),
        ∀ p, p ∈ (build_email_html_and_inline_map now results ov true).2.map Prod.fst →
          p ∈ fs) := by
  refine ⟨by decide, by decide, fun h => ?_⟩
  have := h [] "2025-01-01 00:00"
    [{ url := "https://a.com", ok := true, message := "OK",
       screenshot_path := some "shots/x.png" }] true "shots/x.png" (by decide)
  simp at this

/-- C3 (amended): existence on disk is enforced for the composed message —
every inline image part and every attachment part of the message built by
`compose_email_message` carries a path that exists, and a missing file is
logged (`[Embed Inline] Failed` / `[Attach] Failed`) and silently excluded
from the message without failing the run.  The report HTML, however, is built
without any filesystem check: a missing screenshot still gets an inline
content-id reference in the HTML body (see the counterexample). -/
theorem c3_missing_screenshot_excluded (fs : List String) (fromName user : String)
    (email_to : PyStrOrList) (email_cc : List String) (subject body : String)
    (attachments : List String) (im : List (String × String)) :
    (∀ pt, pt ∈ (compose_email_message fs fromName user email_to email_cc subject body
        attachments im).1.parts → ∀ p, partPath pt = some p → p ∈ fs) ∧
    (∀ p, p ∈ im.map Prod.fst → fs.contains p = false →
      ("[Embed Inline] Failed: " ++ p) ∈ (compose_email_message fs fromName user email_to
        email_cc subject body attachments im).2) ∧
    (∀ p, p ∈ attachments → fs.contains p = false → ¬ p ∈ im.map Prod.fst →
      ("[Attach] Failed: " ++ p) ∈ (compose_email_message fs fromName user email_to
        email_cc subject body attachments im).2) := by
  refine ⟨?_, ?_, ?_⟩
  · intro pt hmem p hp
    have hparts : pt ∈
        (MimePart.textPlain plainFallback :: MimePart.textHtml body ::
          ((buildInlineParts fs im (dedupAcc [] (im.map Prod.fst))).1 ++
           (buildAttachParts fs (dedupAcc [] (im.map Prod.fst)) attachments).1)) := hmem
    rcases List.mem_cons.mp hparts with he | hparts2
    · subst he; exact Option.noConfusion hp
    rcases List.mem_cons.mp hparts2 with he | hparts3
    · subst he; exact Option.noConfusion hp
    rcases List.mem_append.mp hparts3 with hin | hatt
    · exact buildInlineParts_path_mem fs im _ pt hin p hp
    · exact (buildAttachParts_path fs _ attachments pt hatt p hp).1
  · intro p hkey hmiss
    have hdedupmem : p ∈ dedupAcc [] (im.map Prod.fst) :=
      (mem_dedupAcc (im.map Prod.fst) [] p).mpr ⟨hkey, by simp⟩
    show ("[Embed Inline] Failed: " ++ p) ∈
      ((buildInlineParts fs im (dedupAcc [] (im.map Prod.fst))).2 ++
       (buildAttachParts fs (dedupAcc [] (im.map Prod.fst)) attachments).2)
    exact List.mem_append.mpr (Or.inl
      (buildInlineParts_missing_logged fs im _ p hdedupmem hmiss))
  · intro p hatt hmiss hnkey
    have hnin : ¬ p ∈ dedupAcc [] (im.map Prod.fst) := fun hin =>
      hnkey ((mem_dedupAcc (im.map Prod.fst) [] p).mp hin).1
    show ("[Attach] Failed: " ++ p) ∈
      ((buildInlineParts fs im (dedupAcc [] (im.map Prod.fst))).2 ++
       (buildAttachParts fs (dedupAcc [] (im.map Prod.fst)) attachments).2)
    exact List.mem_append.mpr (Or.inr
      (buildAttachParts_missing_logged fs _ attachments p hatt hmiss hnin))

/-- C3 witness: with only `x.png` on disk, a concrete composition over an
inline map containing `x.png` and the missing `gone.png`, and an attachments
list containing `x.png` and the missing `missing.png`: the `x.png` inline part
exists on disk, and both failure log entries are present. -/
theorem c3_witness :
    "x.png" ∈ (["x.png"] : List String) ∧
    ("[Embed Inline] Failed: gone.png") ∈
      (compose_email_message ["x.png"] "" "u" (PyStrOrList.list ["a@b"]) [] "s" "b"
        ["x.png", "missing.png"] [("x.png", "cid0"), ("gone.png", "cid1")]).2 ∧
    ("[Attach] Failed: missing.png") ∈
      (compose_email_message ["x.png"] "" "u" (PyStrOrList.list ["a@b"]) [] "s" "b"
        ["x.png", "missing.png"] [("x.png", "cid0"), ("gone.png", "cid1")]).2 := by
  refine ⟨?_, ?_, ?_⟩
  · exact (c3_missing_screenshot_excluded ["x.png"] "" "u" (PyStrOrList.list ["a@b"]) [] "s" "b"
      ["x.png", "missing.png"] [("x.png", "cid0"), ("gone.png", "cid1")]).1
      (MimePart.inlineImage "x.png" "cid0") (by decide) "x.png" rfl
  · exact (c3_missing_screenshot_excluded ["x.png"] "" "u" (PyStrOrList.list ["a@b"]) [] "s" "b"
      ["x.png", "missing.png"] [("x.png", "cid0"), ("gone.png", "cid1")]).2.1
      "gone.png" (by decide) (by decide)
  · exact (c3_missing_screenshot_excluded ["x.png"] "" "u" (PyStrOrList.list ["a@b"]) [] "s" "b"
      ["x.png", "missing.png"] [("x.png", "cid0"), ("gone.png", "cid1")]).2.2
      "missing.png" (by decide) (by decide) (by decide)

end JPHealth

namespace JPHealth

/-! ## C1 -/

/-- C1 (amended): the process exit code is 2 — before the browser session is
started — when no SMTP username or password is resolvable (CLI flag, named
environment variable, or default environment variable); otherwise the browser
is started and the exit code is 0 iff every URL was processed successfully,
where a URL's success (`UrlResult.ok`) requires both its validation and its
full-page screenshot write to succeed — the two share the per-URL `try` block
(lines 514-531) — and the exit code is 1 when at least one URL failed
(whatever the email step did, since `cfg` — including the SMTP error input —
is arbitrary here). -/
theorem c1_exit_codes (cfg : MainConfig) :
    (¬ credsResolvable cfg →
      (mainModel cfg).exit = 2 ∧ (mainModel cfg).browserStarted = false) ∧
    (credsResolvable cfg →
      (mainModel cfg).browserStarted = true ∧
      ((mainModel cfg).exit = 0 ↔ (mainModel cfg).results.all (fun r => r.ok) = true) ∧
      ((mainModel cfg).results.all (fun r => r.ok) = false → (mainModel cfg).exit = 1)) := by
  cases hu : pyTruthyOpt (resolveSmtpUser cfg.args cfg.env) with
  | false =>
    constructor
    · intro _
      constructor
      · simp [mainModel, hu]
      · simp [mainModel, hu]
    · intro hc
      exact absurd hc.1 (by simp [hu])
  | true =>
    cases hp : pyTruthyOpt (resolveSmtpPass cfg.args cfg.env) with
    | false =>
      constructor
      · intro _
        constructor
        · simp [mainModel, hu, hp]
        · simp [mainModel, hu, hp]
      · intro hc
        exact absurd hc.2 (by simp [hp])
    | true =>
      constructor
      · intro h
        exact absurd ⟨hu, hp⟩ h
      · intro _
        have hov := runLoop_snd_all cfg.stamps cfg.behaviors
          (pyOrStr cfg.args.out_dir DEFAULT_OUT_DIR) (pyOrList cfg.args.urls DEFAULT_URLS)
        cases hE : cfg.smtpError with
        | some e =>
          refine ⟨by simp [mainModel, hu, hp, mainRun, hE], ?_, ?_⟩
          · simp only [mainModel, hu, hp, mainRun, hE]
            simp only [Bool.true_eq_false, if_false]
            rw [hov]
            generalize ((runLoop cfg.stamps cfg.behaviors
              (pyOrStr cfg.args.out_dir DEFAULT_OUT_DIR) 0 true
              (pyOrList cfg.args.urls DEFAULT_URLS)).1.all (fun r => r.ok)) = b
            cases b <;> simp
          · intro hall
            simp only [mainModel, hu, hp, mainRun, hE] at hall ⊢
            simp only [Bool.true_eq_false, if_false] at hall ⊢
            rw [hov, hall]
            rfl
        | none =>
          refine ⟨by simp [mainModel, hu, hp, mainRun, hE], ?_, ?_⟩
          · simp only [mainModel, hu, hp, mainRun, hE]
            simp only [Bool.true_eq_false, if_false]
            rw [hov]
            generalize ((runLoop cfg.stamps cfg.behaviors
              (pyOrStr cfg.args.out_dir DEFAULT_OUT_DIR) 0 true
              (pyOrList cfg.args.urls DEFAULT_URLS)).1.all (fun r => r.ok)) = b
            cases b <;> simp
          · intro hall
            simp only [mainModel, hu, hp, mainRun, hE] at hall ⊢
            simp only [Bool.true_eq_false, if_false] at hall ⊢
            rw [hov, hall]
            rfl

set_option maxRecDepth 100000 in
/-- C1 counterexample: the claim's "exit code 0 if every URL validation
passed" direction is false.  With credentials present and a single URL whose
validation succeeds but whose `fullpage_screenshot` call raises, the raise
lands in the same per-URL `except` branch (lines 525-531): the behavior has
`validationError = none` — the validation passed — yet the run's one result is
the formatted screenshot exception and the process exits 1, not 0. -/
theorem c1_counterexample :
    ({ screenshotError := some "WebDriverException: boom" } : UrlBehavior).validationError
      = none ∧
    (mainModel { args := { smtp_user := some "u", smtp_pass := some "p",
                           urls := some ["https://a.com"] },
                 env := fun _ => none,
                 behaviors := fun _ =>
                   { screenshotError := some "WebDriverException: boom" } }).results.map
      (fun r => r.message) = ["WebDriverException: boom"] ∧
    (mainModel { args := { smtp_user := some "u", smtp_pass := some "p",
                           urls := some ["https://a.com"] },
                 env := fun _ => none,
                 behaviors := fun _ =>
                   { screenshotError := some "WebDriverException: boom" } }).exit = 1 := by
  refine ⟨rfl, by decide, by decide⟩

/-- C1 witness: with no credentials anywhere the run exits 2 without starting
the browser; with credentials, an all-passing run exits 0 and a run with a
failing validation exits 1. -/
theorem c1_witness :
    (mainModel { args := {}, env := fun _ => none }).exit = 2 ∧
    (mainModel { args := {}, env := fun _ => none }).browserStarted = false ∧
    (mainModel { args := { smtp_user := some "u", smtp_pass := some "p",
                           urls := some ["https://a.com"] },
                 env := fun _ => none }).exit = 0 ∧
    (mainModel { args := { smtp_user := some "u", smtp_pass := some "p",
                           urls := some ["https://a.com"] },
                 env := fun _ => none,
                 behaviors := fun _ => { validationError := some "AssertionError: boom" } }).exit = 1 := by
  refine ⟨?_, ?_, ?_, ?_⟩
  · exact ((c1_exit_codes { args := {}, env := fun _ => none }).1 (by decide)).1
  · exact ((c1_exit_codes { args := {}, env := fun _ => none }).1 (by decide)).2
  · exact ((c1_exit_codes { args := { smtp_user := some "u", smtp_pass := some "p",
                                      urls := some ["https://a.com"] },
                            env := fun _ => none }).2
      (by constructor <;> decide)).2.1.mpr (by decide)
  · exact ((c1_exit_codes { args := { smtp_user := some "u", smtp_pass := some "p",
                                      urls := some ["https://a.com"] },
                            env := fun _ => none,
                            behaviors := fun _ =>
                              { validationError := some "AssertionError: boom" } }).2
      (by constructor <;> decide)).2.2 (by decide)

/-! ## C4 -/

/-- C4: when the compose/send block raises (any exception text `e`), the
failure is appended to the error log and swallowed: the exit code is exactly
the one of the same run without the SMTP failure, namely the
validation-determined 0 or 1 — the run never crashes on a reporting or
sending problem. -/
theorem c4_email_failure_swallowed (cfg : MainConfig) (e : String)
    (h : credsResolvable cfg) :
    (mainModel { cfg with smtpError := some e }).exit =
      (mainModel { cfg with smtpError := none }).exit ∧
    ((mainModel { cfg with smtpError := some e }).exit =
      if (mainModel { cfg with smtpError := some e }).results.all (fun r => r.ok)
      then 0 else 1) ∧
    ("Failed to compose/send SMTP email: " ++ e) ∈
      (mainModel { cfg with smtpError := some e }).log := by
  obtain ⟨hu, hp⟩ := h
  refine ⟨?_, ?_, ?_⟩
  · simp [mainModel, hu, hp, mainRun]
  · simp only [mainModel, hu, hp, mainRun]
    simp only [Bool.true_eq_false, if_false]
    rw [runLoop_snd_all]
  · simp [mainModel, hu, hp, mainRun]

/-- C4 witness: a concrete failing-validation run whose compose/send step
raises `boom` still exits 1 and logs the failure. -/
theorem c4_witness :
    ("Failed to compose/send SMTP email: " ++ "boom") ∈
      (mainModel { { args := { smtp_user := some "u", smtp_pass := some "p",
                               urls := some ["https://a.com"] },
                     env := fun _ => none,
                     behaviors := fun _ =>
                       { validationError := some "AssertionError: boom" } : MainConfig }
                   with smtpError := some "boom" }).log ∧
    (mainModel { { args := { smtp_user := some "u", smtp_pass := some "p",
                             urls := some ["https://a.com"] },
                   env := fun _ => none,
                   behaviors := fun _ =>
                     { validationError := some "AssertionError: boom" } : MainConfig }
                 with smtpError := some "boom" }).exit = 1 := by
  have h := c4_email_failure_swallowed
    { args := { smtp_user := some "u", smtp_pass := some "p",
                urls := some ["https://a.com"] },
      env := fun _ => none,
      behaviors := fun _ => { validationError := some "AssertionError: boom" } }
    "boom" (by constructor <;> decide)
  refine ⟨h.2.2, ?_⟩
  rw [h.2.1]
  decide

end JPHealth
